import Mathlib

/-!
Verification development for the job execution engine
(`executor/engine`: `core.py`, `job/base.py`, `job/dask.py`).

The Python code is shallowly embedded: jobs, futures and the engine
resource ledger become Lean structures; the cooperative lifecycle task
`Job.wait_and_run` becomes a fuel-indexed recursive function whose
recursive calls model both the runnability-poll sleep and the retry
re-emission performed inside `Job.on_failed`.  User callables are opaque
and possibly stateful in Python, so they are embedded as oracles indexed
by the attempt number.  Files `condition.py`, `utils.py` and `manager.py`
of the repository are not available; the few pieces taken from them are
marked `Modelled from the spec:` in their doc comments.
-/

namespace ExecutorEngine

/-- Universal dynamic value, standing for Python's untyped values:
integers, `None`, a `JobFuture` object (identified by its job id), and
exception objects (identified by an opaque code). -/
inductive PyVal where
  | vint : Int → PyVal
  | vnone : PyVal
  | vfut : Nat → PyVal
  | vexc : Nat → PyVal
  deriving DecidableEq, Repr

/-- Job status strings of `job/base.py` (the spec fixes the spelling
`cancelled`, which is the one `Job.cancel` uses). -/
inductive JobStatus where
  | created
  | pending
  | running
  | done
  | failed
  | cancelled
  deriving DecidableEq, Repr

/-- Terminal statuses (`done`, `failed`, `cancelled`). -/
def JobStatus.isTerminal : JobStatus → Bool
  | .done => true
  | .failed => true
  | .cancelled => true
  | _ => false

/-- Resource counters: `Engine.setup_by_setting` stores either an `int`
capacity or `float('inf')`; in Python `inf - 1 = inf` and `inf + 1 = inf`,
mirrored by `dec`/`inc` below. -/
inductive RNum where
  | inf : RNum
  | fin : Int → RNum
  deriving DecidableEq, Repr

/-- Comparison `n > 0` used by `has_resource`. -/
def RNum.pos : RNum → Bool
  | .inf => true
  | .fin n => decide (0 < n)

/-- Statement `x -= 1` on a counter. -/
def RNum.dec : RNum → RNum
  | .inf => .inf
  | .fin n => .fin (n - 1)

/-- Statement `x += 1` on a counter. -/
def RNum.inc : RNum → RNum
  | .inf => .inf
  | .fin n => .fin (n + 1)

/-- The `Resource` dataclass of `core.py`. -/
structure Resource where
  n_thread : RNum
  n_process : RNum
  n_dask : RNum
  n_job : RNum
  deriving DecidableEq, Repr

/-- Condition tree.  Modelled from the spec: `condition.py` is not in
src; the constructors are the classes `AfterAnother`, `AfterOthers`,
`AllSatisfied`, `AnySatisfied` that `job/base.py` imports and
instantiates. -/
inductive Cond where
  | afterAnother : Nat → Cond
  | afterOthers : List Nat → Cond
  | allSatisfied : List Cond → Cond
  | anySatisfied : List Cond → Cond
  deriving Repr

/-- The `JobFuture` class.  `resultVal` is `_result` and `exceptionVal`
is `_exception`; both are initialised to Python `None` (`vnone`).
Callbacks are opaque callables, identified by numbers; invocations are
logged in the engine state. -/
structure JobFuture where
  job_id : Nat
  resultVal : PyVal
  exceptionVal : PyVal
  done_callbacks : List Nat
  error_callbacks : List Nat
  deriving DecidableEq, Repr

/-- Constructor `JobFuture.__init__`. -/
def JobFuture.init (jid : Nat) : JobFuture :=
  { job_id := jid, resultVal := .vnone, exceptionVal := .vnone,
    done_callbacks := [], error_callbacks := [] }

/-- Method `JobFuture.result`: it simply returns `self._result`. -/
def JobFuture.result (f : JobFuture) : PyVal := f.resultVal

/-- Method `JobFuture.set_result`: only `_result` is assigned. -/
def JobFuture.set_result (f : JobFuture) (r : PyVal) : JobFuture :=
  { f with resultVal := r }

/-- Method `JobFuture.exception`. -/
def JobFuture.exceptionGet (f : JobFuture) : PyVal := f.exceptionVal

/-- Method `JobFuture.set_exception`: only `_exception` is assigned. -/
def JobFuture.set_exception (f : JobFuture) (e : PyVal) : JobFuture :=
  { f with exceptionVal := e }

/-- Method `JobFuture.add_done_callback`. -/
def JobFuture.add_done_callback (f : JobFuture) (cb : Nat) : JobFuture :=
  { f with done_callbacks := f.done_callbacks ++ [cb] }

/-- Method `JobFuture.add_error_callback`. -/
def JobFuture.add_error_callback (f : JobFuture) (cb : Nat) : JobFuture :=
  { f with error_callbacks := f.error_callbacks ++ [cb] }

/-- Which subclass of `Job` a job is; only the resource accounting
differs between the base class and `DaskJob` in the embedded claims. -/
inductive JobKind where
  | base
  | dask
  deriving DecidableEq, Repr

/-- The `Job` object.  `func` is the opaque, possibly stateful user
callable, embedded as an oracle from the (resolved) positional
arguments, keyword arguments and the attempt number to either a normal
return value or a raised exception object.  `engineSet` stands for
`self.engine is not None`, `taskCreated` for `self.task is not None`.
`retries`/`retry_remain` are the non-negative retry counters
(`on_failed` guards the decrement with `> 0`, so Nat subtraction agrees
with Python).  Timestamps and the middleware flags
(`redirect_out_err`, `change_dir`) play no part in any claim and are
omitted. -/
structure Job where
  id : Nat
  func : List PyVal → List (Nat × PyVal) → Nat → Except PyVal PyVal
  args : List PyVal
  kwargs : List (Nat × PyVal)
  retries : Nat
  retry_remain : Nat
  status : JobStatus
  condition : Option Cond
  engineSet : Bool
  taskCreated : Bool
  dep_job_ids : List Nat
  future : JobFuture
  kind : JobKind

/-- Engine-side state shared by every job: the resource ledger, the job
registry (`Jobs` holds the very objects the lifecycle mutates; the
status-partitioned views of `manager.py` are derivable from `status`),
and the log of callback invocations `(callback id, payload)` in firing
order. -/
structure EngState where
  resource : Resource
  registry : List Job
  fired : List (Nat × PyVal)

/-- Registry lookup `jobs.get_job_by_id`.  Modelled from the spec:
`manager.py` is not in src; the registry is a mapping from job id to the
job object. -/
def getJob (st : EngState) (jid : Nat) : Option Job :=
  st.registry.find? (fun j => j.id == jid)

/-- In Python the registry aliases the very `Job` objects the lifecycle
mutates; mutating `self` is mirrored by updating the registry entry. -/
def modifyJob (st : EngState) (jid : Nat) (f : Job → Job) : EngState :=
  { st with registry := st.registry.map (fun j => if j.id == jid then f j else j) }

/-- Default `EngineSetting` capacities: `max_jobs = 20`, the other three
unbounded (`setup_by_setting` turns `None` into `float('inf')`). -/
def defaultResource : Resource :=
  { n_thread := .inf, n_process := .inf, n_dask := .inf, n_job := .fin 20 }

/-- A fresh engine state. -/
def initState : EngState :=
  { resource := defaultResource, registry := [], fired := [] }

/-- Method `Job.has_resource`; for `DaskJob` the override conjoins
`super().has_resource()` with `self.engine.resource.n_dask > 0`. -/
def Job.has_resource (st : EngState) (jid : Nat) : Bool :=
  match getJob st jid with
  | none => false
  | some j =>
    if j.engineSet then
      match j.kind with
      | .base => st.resource.n_job.pos
      | .dask => st.resource.n_job.pos && st.resource.n_dask.pos
    else false

/-- Method `Job.consume_resource`: with an engine bound it decrements
`n_job` and returns `True` unconditionally; `DaskJob.consume_resource`
additionally decrements `n_dask` before delegating to `super()`. -/
def Job.consume_resource (st : EngState) (jid : Nat) : Bool × EngState :=
  match getJob st jid with
  | none => (false, st)
  | some j =>
    if j.engineSet then
      match j.kind with
      | .base =>
          (true, { st with resource := { st.resource with n_job := st.resource.n_job.dec } })
      | .dask =>
          (true, { st with resource :=
            { st.resource with n_dask := st.resource.n_dask.dec, n_job := st.resource.n_job.dec } })
    else (false, st)

/-- Method `Job.release_resource` and the `DaskJob` override. -/
def Job.release_resource (st : EngState) (jid : Nat) : Bool × EngState :=
  match getJob st jid with
  | none => (false, st)
  | some j =>
    if j.engineSet then
      match j.kind with
      | .base =>
          (true, { st with resource := { st.resource with n_job := st.resource.n_job.inc } })
      | .dask =>
          (true, { st with resource :=
            { st.resource with n_dask := st.resource.n_dask.inc, n_job := st.resource.n_job.inc } })
    else (false, st)

mutual

/-- Condition evaluation.  Modelled from the spec: `condition.py` is not
in src.  `AfterAnother` is satisfied when the referenced job is `done`;
`AfterOthers` when every referenced job is terminal (a job id missing
from the registry makes it unsatisfiable); `AllSatisfied` and
`AnySatisfied` are the boolean composites, children evaluated in
declaration order. -/
def Cond.satisfy (st : EngState) : Cond → Bool
  | .afterAnother jid =>
    match getJob st jid with
    | some j => j.status == .done
    | none => false
  | .afterOthers jids => Cond.satisfyTerminalAll st jids
  | .allSatisfied cs => Cond.satisfyAll st cs
  | .anySatisfied cs => Cond.satisfyAny st cs

def Cond.satisfyTerminalAll (st : EngState) : List Nat → Bool
  | [] => true
  | jid :: rest =>
    (match getJob st jid with
     | some j => j.status.isTerminal
     | none => false) && Cond.satisfyTerminalAll st rest

def Cond.satisfyAll (st : EngState) : List Cond → Bool
  | [] => true
  | c :: rest => Cond.satisfy st c && Cond.satisfyAll st rest

def Cond.satisfyAny (st : EngState) : List Cond → Bool
  | [] => false
  | c :: rest => Cond.satisfy st c || Cond.satisfyAny st rest

end

/-- Method `Job.runnable`: engine bound, condition (if any) satisfied,
and `has_resource`. -/
def Job.runnable (st : EngState) (jid : Nat) : Bool :=
  match getJob st jid with
  | none => false
  | some j =>
    if j.engineSet then
      match j.condition with
      | some c => Cond.satisfy st c && Job.has_resource st jid
      | none => Job.has_resource st jid
    else false

/-- The acquisition step `self.runnable() and self.consume_resource()`
performed by `Job.wait_and_run`, with Python's short-circuit `and`:
`consume_resource` runs (and mutates the ledger) only when `runnable()`
returned `True`. -/
def Job.acquire_step (st : EngState) (jid : Nat) : Bool × EngState :=
  if Job.runnable st jid then Job.consume_resource st jid else (false, st)

/-- Test `isinstance(arg, JobFuture)` projected to the referenced job id. -/
def futIdOf : PyVal → Option Nat
  | .vfut i => some i
  | _ => none

/-- Method `Job.resolve_dependencies`: scan `chain(args, kwargs.values())`
for `JobFuture` arguments; when there is at least one, conjoin an
`AfterOthers` over their job ids with any existing condition (as
`AllSatisfied`); always store the computed `dep_job_ids`. -/
def Job.resolve_dependencies (j : Job) : Job :=
  let dep_jobs_ids := (j.args ++ j.kwargs.map Prod.snd).filterMap futIdOf
  if dep_jobs_ids.length > 0 then
    let after_others := Cond.afterOthers dep_jobs_ids
    match j.condition with
    | none =>
      { j with condition := some after_others, dep_job_ids := dep_jobs_ids }
    | some c =>
      { j with condition := some (Cond.allSatisfied [c, after_others]),
               dep_job_ids := dep_jobs_ids }
  else
    { j with dep_job_ids := dep_jobs_ids }

/-- Method `Job.result`: raises `InvalidStateError` unless the status is
`done`, then returns `self.future.result()`. -/
def Job.result (j : Job) : Except Unit PyVal :=
  if j.status != .done then .error () else .ok (JobFuture.result j.future)

/-- Method `Job.exception`. -/
def Job.exceptionGet (j : Job) : PyVal := JobFuture.exceptionGet j.future

/-- The `_on_finish` helper: set the new status, then `release_resource`. -/
def Job.on_finish (st : EngState) (jid : Nat) (new_status : JobStatus) : EngState :=
  let st1 := modifyJob st jid (fun x => { x with status := new_status })
  (Job.release_resource st1 jid).2

/-- Method `Job.cancel`: `self.task.cancel()` first — an `AttributeError`
(the `.error` outcome) when the lifecycle task was never created
(`self.task is None`); then a running job is finished as `cancelled`
(releasing its slots, after the backend `clear_context` hook, a no-op in
the base class), while a pending job merely has its status set to
`cancelled` with no release. -/
def Job.cancel (st : EngState) (jid : Nat) : Except Unit EngState :=
  match getJob st jid with
  | none => .error ()
  | some j =>
    if !j.taskCreated then .error ()
    else if j.status == .running then
      .ok (Job.on_finish st jid .cancelled)
    else if j.status == .pending then
      .ok (modifyJob st jid (fun x => { x with status := .cancelled }))
    else .ok st

/-- Method `Job.emit`: raises `JobEmitError` unless the status is
`pending`; otherwise runs `resolve_dependencies`, records the submit
time (not modelled) and spawns the lifecycle task (`taskCreated`); the
spawned `wait_and_run` coroutine is run explicitly by the theorems. -/
def Job.emit (st : EngState) (jid : Nat) : Except Unit EngState :=
  match getJob st jid with
  | none => .error ()
  | some j =>
    if j.status != .pending then .error ()
    else
      let st1 := modifyJob st jid Job.resolve_dependencies
      .ok (modifyJob st1 jid (fun x => { x with taskCreated := true }))

/-- Firing a callback list: the Python `for` loop invokes each callback
in insertion order with the payload; the model logs each invocation
(callback exceptions are logged and ignored, with no lifecycle effect). -/
def fireCallbacks (st : EngState) (cbs : List Nat) (payload : PyVal) : EngState :=
  { st with fired := st.fired ++ cbs.map (fun cb => (cb, payload)) }

/-- Method `Job.on_done`: record the result on the future, fire the done
callbacks in order, then `_on_finish("done")`. -/
def Job.on_done (st : EngState) (jid : Nat) (res : PyVal) : EngState :=
  let st1 := modifyJob st jid (fun x => { x with future := x.future.set_result res })
  let cbs := match getJob st1 jid with
    | some j => j.future.done_callbacks
    | none => []
  let st2 := fireCallbacks st1 cbs res
  Job.on_finish st2 jid .done

/-- Outcome of `Job.on_failed`: either the job finished `failed`, or a
retry was scheduled (`rerun` re-emitted the job and a fresh lifecycle
task will run), or an exception escaped the coroutine. -/
inductive FailNext where
  | terminal : EngState → FailNext
  | retry : EngState → FailNext
  | crashed : EngState → FailNext

/-- Method `Job.on_failed`: record the exception, fire the error
callbacks in order, then either consume a retry — `_on_finish("pending")`,
decrement `retry_remain`, sleep `retry_time_delta` and
`rerun(check_status=False)` (which sets the status to `pending` and
emits) — or `_on_finish("failed")`.  The `retry_remain > 0` test is
written as the match on the non-negative counter. -/
def Job.on_failed_step (st : EngState) (jid : Nat) (e : PyVal) : FailNext :=
  let st1 := modifyJob st jid (fun x => { x with future := x.future.set_exception e })
  let cbs := match getJob st1 jid with
    | some j => j.future.error_callbacks
    | none => []
  let st2 := fireCallbacks st1 cbs e
  match getJob st2 jid with
  | none => .crashed st2
  | some j =>
    match j.retry_remain with
    | _ + 1 =>
      let st3 := Job.on_finish st2 jid .pending
      let st4 := modifyJob st3 jid (fun x => { x with retry_remain := x.retry_remain - 1 })
      let st5 := modifyJob st4 jid (fun x => { x with status := .pending })
      match Job.emit st5 jid with
      | .ok st6 => .retry st6
      | .error _ => .crashed st5
    | 0 => .terminal (Job.on_finish st2 jid .failed)

/-- Error outcome of argument resolution: `StopResolve` (caught by
`wait_and_run`, which breaks) or any other exception (`KeyError` from
the registry, `InvalidStateError`, the `ExecutorError` unreachable
branch), which escapes the coroutine. -/
inductive RErr where
  | stopResolve : EngState → RErr
  | internal : EngState → RErr

/-- Method `Job._resolve_arg`: a `JobFuture` argument is looked up in
the registry; a `done` upstream is replaced by its `result()`; a
`failed` or `cancelled` upstream cancels this job and raises
`StopResolve`; any other upstream status raises `ExecutorError`. -/
def Job.resolve_one (st : EngState) (jid : Nat) (arg : PyVal) : Except RErr (EngState × PyVal) :=
  match arg with
  | .vfut dep_id =>
    match getJob st dep_id with
    | none => .error (.internal st)
    | some dep =>
      if dep.status == .done then
        match Job.result dep with
        | .ok v => .ok (st, v)
        | .error _ => .error (.internal st)
      else if dep.status == .failed then
        match Job.cancel st jid with
        | .ok st2 => .error (.stopResolve st2)
        | .error _ => .error (.internal st)
      else if dep.status == .cancelled then
        match Job.cancel st jid with
        | .ok st2 => .error (.stopResolve st2)
        | .error _ => .error (.internal st)
      else .error (.internal st)
  | v => .ok (st, v)

/-- The `for arg in self.args` loop of `Job.resolve_args`. -/
def Job.resolve_list (st : EngState) (jid : Nat) : List PyVal → Except RErr (EngState × List PyVal)
  | [] => .ok (st, [])
  | a :: rest =>
    match Job.resolve_one st jid a with
    | .error e => .error e
    | .ok (st2, v) =>
      match Job.resolve_list st2 jid rest with
      | .error e => .error e
      | .ok (st3, vs) => .ok (st3, v :: vs)

/-- The `for key, value in self.kwargs.items()` loop of `Job.resolve_args`. -/
def Job.resolve_kwlist (st : EngState) (jid : Nat) :
    List (Nat × PyVal) → Except RErr (EngState × List (Nat × PyVal))
  | [] => .ok (st, [])
  | (k, a) :: rest =>
    match Job.resolve_one st jid a with
    | .error e => .error e
    | .ok (st2, v) =>
      match Job.resolve_kwlist st2 jid rest with
      | .error e => .error e
      | .ok (st3, vs) => .ok (st3, (k, v) :: vs)

/-- Method `Job.resolve_args`: only when `dep_job_ids` is non-empty,
resolve every positional and keyword argument, then assign the resolved
tuples back to `self.args` / `self.kwargs`. -/
def Job.resolve_args (st : EngState) (jid : Nat) : Except RErr EngState :=
  match getJob st jid with
  | none => .error (.internal st)
  | some j =>
    if j.dep_job_ids.length > 0 then
      match Job.resolve_list st jid j.args with
      | .error e => .error e
      | .ok (st2, newArgs) =>
        match Job.resolve_kwlist st2 jid j.kwargs with
        | .error e => .error e
        | .ok (st3, newKw) =>
          .ok (modifyJob st3 jid (fun x => { x with args := newArgs, kwargs := newKw }))
    else .ok st

/-- Method `Job.run`.  Modelled from the spec: the backend classes
(`LocalJob`, `ThreadJob`, `ProcessJob`; `DaskJob.run` submits to the
cluster) are external collaborators that invoke the opaque, possibly
stateful user callable on the resolved arguments; the callable is the
oracle stored in the job, indexed by the attempt number. -/
def Job.runFunc (st : EngState) (jid : Nat) (attempt : Nat) : Except PyVal PyVal :=
  match getJob st jid with
  | none => .error .vnone
  | some j => j.func j.args j.kwargs attempt

/-- Final fate of a lifecycle task run. -/
inductive WRun where
  | fuelOut : WRun
  | finished : EngState → WRun
  | crashed : EngState → WRun

/-- Method `Job.wait_and_run`, the lifecycle task.  Each loop iteration
either acquires (condition satisfied and resources consumed) and runs
the job, or sleeps `wait_time_delta` and polls again (a recursive call
on less fuel).  On success `on_done` fires and the result is returned;
`StopResolve` breaks out; on failure `on_failed` fires and either the
task breaks (status `failed`) or the retry re-emission continues the
execution with the next attempt (again a recursive call on less fuel).
`fuelOut` means the modelled execution needed more scheduler steps. -/
def Job.wait_and_run (st : EngState) (jid : Nat) (attempt : Nat) : Nat → WRun
  | 0 => .fuelOut
  | fuel + 1 =>
    let acq := Job.acquire_step st jid
    if acq.1 then
      match Job.resolve_args acq.2 jid with
      | .error (.stopResolve st2) => .finished st2
      | .error (.internal st2) => .crashed st2
      | .ok st2 =>
        let st3 := modifyJob st2 jid (fun x => { x with status := .running })
        match Job.runFunc st3 jid attempt with
        | .ok res => .finished (Job.on_done st3 jid res)
        | .error e =>
          match Job.on_failed_step st3 jid e with
          | .terminal st4 => .finished st4
          | .crashed st4 => .crashed st4
          | .retry st4 => Job.wait_and_run st4 jid (attempt + 1) fuel
    else
      Job.wait_and_run st jid attempt fuel

/-- Method `Engine.submit_async`: a `created` job gets its engine bound,
its status set to `pending` (directly on `_status`) and is added to the
registry; any other (terminal) job is reset to `pending` through the
status attribute; then the job is emitted. -/
def Engine.submit_async (st : EngState) (j : Job) : Except Unit EngState :=
  if j.status == .created then
    let j1 := { j with engineSet := true, status := .pending }
    let st1 := { st with registry := st.registry ++ [j1] }
    Job.emit st1 j.id
  else
    let st1 := modifyJob st j.id (fun x => { x with status := .pending })
    Job.emit st1 j.id

/-- The `wait_run` closure inside `Engine.submit`: after `job.join()`,
return `job.result()` when the status is `done` and `job.exception()`
otherwise — the exception object is returned as an ordinary value, not
raised. -/
def Engine.wait_run (j : Job) : Except Unit PyVal :=
  if j.status == .done then Job.result j else .ok (Job.exceptionGet j)

/-- Method `Engine.submit` (synchronous): run `submit_async` on the
loop, then the future it returns computes `wait_run` once the lifecycle
task has finished.  The pair is the final engine state and the value the
returned future yields. -/
def Engine.submitFlow (st : EngState) (j : Job) (fuel : Nat) :
    Option (EngState × Except Unit PyVal) :=
  match Engine.submit_async st j with
  | .error _ => none
  | .ok st1 =>
    match Job.wait_and_run st1 j.id 0 fuel with
    | .finished st2 =>
      match getJob st2 j.id with
      | some j2 => some (st2, Engine.wait_run j2)
      | none => none
    | _ => none

/-- Status projection of a registry entry. -/
def statusOf (st : EngState) (jid : Nat) : Option JobStatus :=
  (getJob st jid).map Job.status

/-- Stored future result (`_result`) of a registry entry. -/
def resultOf (st : EngState) (jid : Nat) : Option PyVal :=
  (getJob st jid).map (fun j => j.future.resultVal)

/-- Stored future exception (`_exception`) of a registry entry. -/
def excOf (st : EngState) (jid : Nat) : Option PyVal :=
  (getJob st jid).map (fun j => j.future.exceptionVal)

/-- Condition of a registry entry. -/
def condOf (st : EngState) (jid : Nat) : Option (Option Cond) :=
  (getJob st jid).map Job.condition

/-- Remaining retries of a registry entry (0 when absent). -/
def retryN (st : EngState) (jid : Nat) : Nat :=
  ((getJob st jid).map Job.retry_remain).getD 0

/-- State extraction from an `Except`, with a default. -/
def exstate (r : Except Unit EngState) (d : EngState) : EngState :=
  match r with
  | .ok s => s
  | .error _ => d

/-- Finished-state extraction from a lifecycle run. -/
def wfin : WRun → Option EngState
  | .finished s => some s
  | _ => none

/-- Remaining retries observed at the end of a lifecycle run (0 when the
run did not finish). -/
def retryFin (w : WRun) (jid : Nat) : Nat :=
  match w with
  | .finished s => retryN s jid
  | .crashed s => retryN s jid
  | .fuelOut => 0

/-- Callback log after a `cancel` call (unchanged when cancel raised). -/
def cancelFired (st : EngState) (jid : Nat) : List (Nat × PyVal) :=
  match Job.cancel st jid with
  | .ok s => s.fired
  | .error _ => st.fired

/-- Constructor `Job.__init__`: a fresh job is `created`, unbound, with
no lifecycle task; `retry_remain` starts at `retries`; the optional
`callback` / `error_callback` arguments (generalized to lists) are
appended to the future's callback lists.  The display name, timestamps
and middleware flags are omitted (no claim concerns them). -/
def mkBaseJob (jid : Nat)
    (func : List PyVal → List (Nat × PyVal) → Nat → Except PyVal PyVal)
    (args : List PyVal) (kwargs : List (Nat × PyVal)) (retries : Nat)
    (cnd : Option Cond) (dcbs ecbs : List Nat) : Job :=
  { id := jid, func := func, args := args, kwargs := kwargs,
    retries := retries, retry_remain := retries, status := .created,
    condition := cnd, engineSet := false, taskCreated := false,
    dep_job_ids := [],
    future := { job_id := jid, resultVal := .vnone, exceptionVal := .vnone,
                done_callbacks := dcbs, error_callbacks := ecbs },
    kind := .base }

/-- An opaque callable that returns `v` on every call. -/
def constOkF (v : PyVal) : List PyVal → List (Nat × PyVal) → Nat → Except PyVal PyVal :=
  fun _ _ _ => .ok v

/-- An opaque callable that raises `e` on every call. -/
def constErrF (e : PyVal) : List PyVal → List (Nat × PyVal) → Nat → Except PyVal PyVal :=
  fun _ _ _ => .error e

/-- An opaque stateful callable that raises `e` on its first invocation
and returns `v` on every later one. -/
def flipF (e v : PyVal) : List PyVal → List (Nat × PyVal) → Nat → Except PyVal PyVal :=
  fun _ _ n => if n == 0 then .error e else .ok v

/-! A parametric family of single-job engine states used to drive
`wait_and_run` one attempt at a time: the job (id 1) is `pending`,
emitted (task created, no dependencies left), on a fresh default ledger.
`rts` is `retries`, `r` is `retry_remain`, `resV`/`excV` the stored
future result/exception, `dcbs`/`ecbs` the callback lists and `log` the
callback-invocation log so far. -/

/-- Ready-to-poll state of the single-job family. -/
def readyState (f : List PyVal → List (Nat × PyVal) → Nat → Except PyVal PyVal)
    (args : List PyVal) (kwargs : List (Nat × PyVal)) (rts r : Nat)
    (resV excV : PyVal) (dcbs ecbs : List Nat) (log : List (Nat × PyVal)) : EngState :=
  { resource := defaultResource,
    registry := [{ id := 1, func := f, args := args, kwargs := kwargs, retries := rts,
                   retry_remain := r, status := .pending, condition := none,
                   engineSet := true, taskCreated := true, dep_job_ids := [],
                   future := { job_id := 1, resultVal := resV, exceptionVal := excV,
                               done_callbacks := dcbs, error_callbacks := ecbs },
                   kind := .base }],
    fired := log }

/-- Same state after `consume_resource` took the `jobs_total` slot. -/
def consumedAt (f : List PyVal → List (Nat × PyVal) → Nat → Except PyVal PyVal)
    (args : List PyVal) (kwargs : List (Nat × PyVal)) (rts r : Nat)
    (resV excV : PyVal) (dcbs ecbs : List Nat) (log : List (Nat × PyVal)) : EngState :=
  { resource := { defaultResource with n_job := .fin 19 },
    registry := [{ id := 1, func := f, args := args, kwargs := kwargs, retries := rts,
                   retry_remain := r, status := .pending, condition := none,
                   engineSet := true, taskCreated := true, dep_job_ids := [],
                   future := { job_id := 1, resultVal := resV, exceptionVal := excV,
                               done_callbacks := dcbs, error_callbacks := ecbs },
                   kind := .base }],
    fired := log }

/-- Same state once the status was set to `running`. -/
def runningAt (f : List PyVal → List (Nat × PyVal) → Nat → Except PyVal PyVal)
    (args : List PyVal) (kwargs : List (Nat × PyVal)) (rts r : Nat)
    (resV excV : PyVal) (dcbs ecbs : List Nat) (log : List (Nat × PyVal)) : EngState :=
  { resource := { defaultResource with n_job := .fin 19 },
    registry := [{ id := 1, func := f, args := args, kwargs := kwargs, retries := rts,
                   retry_remain := r, status := .running, condition := none,
                   engineSet := true, taskCreated := true, dep_job_ids := [],
                   future := { job_id := 1, resultVal := resV, exceptionVal := excV,
                               done_callbacks := dcbs, error_callbacks := ecbs },
                   kind := .base }],
    fired := log }

/-- Final state of a successful attempt returning `w`: `done`, slot
released, done callbacks fired once each, in insertion order. -/
def readyDone (f : List PyVal → List (Nat × PyVal) → Nat → Except PyVal PyVal)
    (args : List PyVal) (kwargs : List (Nat × PyVal)) (rts r : Nat)
    (w excV : PyVal) (dcbs ecbs : List Nat) (log : List (Nat × PyVal)) : EngState :=
  { resource := defaultResource,
    registry := [{ id := 1, func := f, args := args, kwargs := kwargs, retries := rts,
                   retry_remain := r, status := .done, condition := none,
                   engineSet := true, taskCreated := true, dep_job_ids := [],
                   future := { job_id := 1, resultVal := w, exceptionVal := excV,
                               done_callbacks := dcbs, error_callbacks := ecbs },
                   kind := .base }],
    fired := log ++ dcbs.map (fun cb => (cb, w)) }

/-- Final state once the last attempt failed with `e`: `failed`, slot
released, error callbacks fired, `retry_remain = 0`. -/
def readyFailed (f : List PyVal → List (Nat × PyVal) → Nat → Except PyVal PyVal)
    (args : List PyVal) (kwargs : List (Nat × PyVal)) (rts : Nat)
    (resV e : PyVal) (dcbs ecbs : List Nat) (log : List (Nat × PyVal)) : EngState :=
  { resource := defaultResource,
    registry := [{ id := 1, func := f, args := args, kwargs := kwargs, retries := rts,
                   retry_remain := 0, status := .failed, condition := none,
                   engineSet := true, taskCreated := true, dep_job_ids := [],
                   future := { job_id := 1, resultVal := resV, exceptionVal := e,
                               done_callbacks := dcbs, error_callbacks := ecbs },
                   kind := .base }],
    fired := log ++ ecbs.map (fun cb => (cb, e)) }

/-! Scenario for C2: an upstream job (id 1) that has already failed, and
a downstream job (id 2) taking the upstream's future as argument, on an
engine with `max_jobs = 1`. -/

/-- Upstream job of the C2 scenario, already terminal `failed`. -/
def c2JobA : Job :=
  { mkBaseJob 1 (constErrF (.vexc 1)) [] [] 0 none [] [] with
    status := .failed, engineSet := true, taskCreated := true }

/-- Engine state with capacity `max_jobs = 1`, full ledger, upstream
registered. -/
def c2Init : EngState :=
  { resource := { defaultResource with n_job := .fin 1 }, registry := [c2JobA], fired := [] }

/-- Downstream job of the C2 scenario: one `JobFuture` argument. -/
def c2JobB : Job := mkBaseJob 2 (constOkF .vnone) [.vfut 1] [] 0 none [] []

/-- State after `submit_async` of the downstream job. -/
def c2Start : EngState := exstate (Engine.submit_async c2Init c2JobB) c2Init

/-- Scenario for C4: a `DaskJob`, pending and emitted, on a ledger with
the given counters. -/
def c4Job : Job :=
  { mkBaseJob 4 (constOkF .vnone) [] [] 0 none [] [] with
    kind := .dask, engineSet := true, status := .pending, taskCreated := true }

/-- C4 engine state parametrized by the ledger. -/
def c4State (r : Resource) : EngState :=
  { resource := r, registry := [c4Job], fired := [] }

/-- C4 counterexample ledger: `jobs_total` has slots, the cluster class
has none. -/
def c4Res : Resource := { defaultResource with n_job := .fin 5, n_dask := .fin 0 }

/-- Scenario for C5: a job with `retries = 1` whose callable always
raises, submitted to a fresh engine. -/
def c5Start : EngState :=
  exstate (Engine.submit_async initState (mkBaseJob 1 (constErrF (.vexc 3)) [] [] 1 none [] [])) initState

/-- Terminal state of the C5 job after both attempts failed. -/
def c5Fin : EngState := (wfin (Job.wait_and_run c5Start 1 0 2)).getD initState

/-- The very job object (as mutated in the registry) that the caller
re-submits. -/
def c5JobT : Job := (getJob c5Fin 1).getD c2JobA

/-- State after re-submitting the terminal job. -/
def c5Re : EngState := exstate (Engine.submit_async c5Fin c5JobT) c5Fin

/-- Scenario for C6: a job with one `JobFuture` argument (to id 9) and
no explicit condition. -/
def c6Job : Job := mkBaseJob 3 (constOkF .vnone) [.vfut 9] [] 0 none [] []

/-- State after the first `submit_async` (first emission). -/
def c6St1 : EngState := exstate (Engine.submit_async initState c6Job) initState

/-- State after cancelling the still-pending job (its argument was never
resolved, job 9 is not even registered). -/
def c6St2 : EngState := exstate (Job.cancel c6St1 3) c6St1

/-- The mutated job object the caller re-submits. -/
def c6JobT : Job := (getJob c6St2 3).getD c6Job

/-- State after the terminal re-submit (second emission). -/
def c6St3 : EngState := exstate (Engine.submit_async c6St2 c6JobT) c6St2

/-- C7 scenario: a freshly constructed job, never submitted. -/
def c7Job : Job := mkBaseJob 6 (constOkF .vnone) [] [] 0 none [] []

/-- C8 scenario: a job whose status is `pending` but whose lifecycle
task has not been created (`self.task is None`). -/
def c8Job : Job :=
  { mkBaseJob 5 (constOkF .vnone) [] [] 0 none [] [] with
    status := .pending, engineSet := true }

/-- C8 engine state. -/
def c8St : EngState :=
  { resource := defaultResource, registry := [c8Job], fired := [] }

/-- C10 scenario: a job with `retries = 1` that fails on the first
attempt with `e` and succeeds on the retry with `v`. -/
def c10Start (e v : PyVal) : EngState :=
  exstate (Engine.submit_async initState (mkBaseJob 1 (flipF e v) [] [] 1 none [] [])) initState

/-- C3 counterexample scenario: `retries = 2`, an always-raising
callable, one registered error callback (id 7). -/
def c3Start : EngState :=
  exstate (Engine.submit_async initState (mkBaseJob 1 (constErrF (.vexc 99)) [] [] 2 none [] [7])) initState

/-- Future-argument job ids of a job (`isinstance(arg, JobFuture)` scan
of `resolve_dependencies`). -/
def futArgIds (j : Job) : List Nat :=
  (j.args ++ j.kwargs.map Prod.snd).filterMap futIdOf

/-- The C1 job: an opaque callable computing `g` on its arguments,
never raising. -/
def c1Job (g : List PyVal → List (Nat × PyVal) → PyVal)
    (args : List PyVal) (kwargs : List (Nat × PyVal)) (r : Nat) (dcbs : List Nat) : Job :=
  mkBaseJob 1 (fun a k _ => .ok (g a k)) args kwargs r none dcbs []

/-- The C1 job as registered by `submit_async`, before `emit` runs
`resolve_dependencies` and spawns the task. -/
def c1Pre (g : List PyVal → List (Nat × PyVal) → PyVal)
    (args : List PyVal) (kwargs : List (Nat × PyVal)) (r : Nat) (dcbs : List Nat) : EngState :=
  { resource := defaultResource,
    registry := [{ id := 1, func := fun a k _ => .ok (g a k), args := args, kwargs := kwargs,
                   retries := r, retry_remain := r, status := .pending, condition := none,
                   engineSet := true, taskCreated := false, dep_job_ids := [],
                   future := { job_id := 1, resultVal := .vnone, exceptionVal := .vnone,
                               done_callbacks := dcbs, error_callbacks := [] },
                   kind := .base }],
    fired := [] }

/-- Final state of the C3 counterexample run (retries = 2, always
failing, error callback 7). -/
def c3Final : EngState := (wfin (Job.wait_and_run c3Start 1 0 3)).getD initState

/-- State carried by a resolution error. -/
def rerrSt : RErr → EngState
  | .stopResolve s => s
  | .internal s => s

/-- State reached by a single-argument resolution, whatever the outcome. -/
def exSt {A : Type} : Except RErr (EngState × A) → EngState
  | .ok (s, _) => s
  | .error e => rerrSt e

/-- State reached by `resolve_args`, whatever the outcome. -/
def exSt0 : Except RErr EngState → EngState
  | .ok s => s
  | .error e => rerrSt e

/-- State reached by `on_failed`, whatever the outcome. -/
def failSt : FailNext → EngState
  | .terminal s => s
  | .retry s => s
  | .crashed s => s

/-- One loop iteration of `wait_and_run` on a ready state whose callable
succeeds at this attempt: the job finishes `done` with the value stored
and the done callbacks fired once, in order. -/
lemma wait_and_run_step_ok
    (f : List PyVal → List (Nat × PyVal) → Nat → Except PyVal PyVal)
    (args : List PyVal) (kwargs : List (Nat × PyVal)) (rts r : Nat)
    (resV excV w : PyVal) (dcbs ecbs : List Nat) (log : List (Nat × PyVal))
    (a fuel : Nat) (h : f args kwargs a = .ok w) :
    Job.wait_and_run (readyState f args kwargs rts r resV excV dcbs ecbs log) 1 a (fuel + 1)
      = .finished (readyDone f args kwargs rts r w excV dcbs ecbs log) := by
  have ha : Job.acquire_step (readyState f args kwargs rts r resV excV dcbs ecbs log) 1
      = (true, consumedAt f args kwargs rts r resV excV dcbs ecbs log) := rfl
  have hra : Job.resolve_args (consumedAt f args kwargs rts r resV excV dcbs ecbs log) 1
      = .ok (consumedAt f args kwargs rts r resV excV dcbs ecbs log) := rfl
  have hm : modifyJob (consumedAt f args kwargs rts r resV excV dcbs ecbs log) 1
        (fun x => { x with status := .running })
      = runningAt f args kwargs rts r resV excV dcbs ecbs log := rfl
  have hrf : Job.runFunc (runningAt f args kwargs rts r resV excV dcbs ecbs log) 1 a
      = f args kwargs a := rfl
  have ho : Job.on_done (runningAt f args kwargs rts r resV excV dcbs ecbs log) 1 w
      = readyDone f args kwargs rts r w excV dcbs ecbs log := rfl
  simp only [Job.wait_and_run, ha, hra, hm, hrf, h, ho, if_true]

/-- One loop iteration on a ready state whose callable raises while
retries remain: the error callbacks fire once each (in order), the slot
is released, `retry_remain` is decremented, the exception is recorded
and the re-emitted task polls again with the next attempt. -/
lemma wait_and_run_step_fail_retry
    (f : List PyVal → List (Nat × PyVal) → Nat → Except PyVal PyVal)
    (rts n : Nat)
    (resV excV e : PyVal) (dcbs ecbs : List Nat) (log : List (Nat × PyVal))
    (a fuel : Nat) (h : f [] [] a = .error e) :
    Job.wait_and_run (readyState f [] [] rts (n + 1) resV excV dcbs ecbs log) 1 a (fuel + 1)
      = Job.wait_and_run
          (readyState f [] [] rts n resV e dcbs ecbs (log ++ ecbs.map (fun cb => (cb, e))))
          1 (a + 1) fuel := by
  have ha : Job.acquire_step (readyState f [] [] rts (n + 1) resV excV dcbs ecbs log) 1
      = (true, consumedAt f [] [] rts (n + 1) resV excV dcbs ecbs log) := rfl
  have hra : Job.resolve_args (consumedAt f [] [] rts (n + 1) resV excV dcbs ecbs log) 1
      = .ok (consumedAt f [] [] rts (n + 1) resV excV dcbs ecbs log) := rfl
  have hm : modifyJob (consumedAt f [] [] rts (n + 1) resV excV dcbs ecbs log) 1
        (fun x => { x with status := .running })
      = runningAt f [] [] rts (n + 1) resV excV dcbs ecbs log := rfl
  have hrf : Job.runFunc (runningAt f [] [] rts (n + 1) resV excV dcbs ecbs log) 1 a
      = f [] [] a := rfl
  have hof : Job.on_failed_step (runningAt f [] [] rts (n + 1) resV excV dcbs ecbs log) 1 e
      = .retry (readyState f [] [] rts n resV e dcbs ecbs
          (log ++ ecbs.map (fun cb => (cb, e)))) := rfl
  simp only [Job.wait_and_run, ha, hra, hm, hrf, h, hof, if_true]

/-- One loop iteration on a ready state whose callable raises with no
retries left: the error callbacks fire once each, the slot is released
and the job finishes `failed`. -/
lemma wait_and_run_step_fail_last
    (f : List PyVal → List (Nat × PyVal) → Nat → Except PyVal PyVal)
    (args : List PyVal) (kwargs : List (Nat × PyVal)) (rts : Nat)
    (resV excV e : PyVal) (dcbs ecbs : List Nat) (log : List (Nat × PyVal))
    (a fuel : Nat) (h : f args kwargs a = .error e) :
    Job.wait_and_run (readyState f args kwargs rts 0 resV excV dcbs ecbs log) 1 a (fuel + 1)
      = .finished (readyFailed f args kwargs rts resV e dcbs ecbs log) := by
  have ha : Job.acquire_step (readyState f args kwargs rts 0 resV excV dcbs ecbs log) 1
      = (true, consumedAt f args kwargs rts 0 resV excV dcbs ecbs log) := rfl
  have hra : Job.resolve_args (consumedAt f args kwargs rts 0 resV excV dcbs ecbs log) 1
      = .ok (consumedAt f args kwargs rts 0 resV excV dcbs ecbs log) := rfl
  have hm : modifyJob (consumedAt f args kwargs rts 0 resV excV dcbs ecbs log) 1
        (fun x => { x with status := .running })
      = runningAt f args kwargs rts 0 resV excV dcbs ecbs log := rfl
  have hrf : Job.runFunc (runningAt f args kwargs rts 0 resV excV dcbs ecbs log) 1 a
      = f args kwargs a := rfl
  have hof : Job.on_failed_step (runningAt f args kwargs rts 0 resV excV dcbs ecbs log) 1 e
      = .terminal (readyFailed f args kwargs rts resV e dcbs ecbs log) := rfl
  simp only [Job.wait_and_run, ha, hra, hm, hrf, h, hof, if_true]

/-- C2: the claim states the ledger invariant `in_use + remaining =
capacity` and that every job reaching a terminal state has released
every slot it consumed, including a job cancelled because an upstream
dependency failed.  The code violates this: `wait_and_run` consumes a
slot before `resolve_args`; a failed upstream makes `_resolve_arg`
cancel the job while it is still `pending`, and `cancel` on a pending
job releases nothing, so the consumed slot leaks.  With capacity 1, both
jobs end terminal yet the remaining counter is 0, not 1. -/
theorem cancelled_dependent_leaks_slot :
    ∃ stf, Job.wait_and_run c2Start 2 0 1 = .finished stf ∧
      statusOf stf 2 = some .cancelled ∧
      stf.registry.all (fun j => j.status.isTerminal) = true ∧
      stf.resource.n_job = RNum.fin 0 ∧
      c2Init.resource.n_job = RNum.fin 1 :=
  ⟨_, rfl, rfl, rfl, rfl, rfl⟩

/-- C4 counterexample: `DaskJob.consume_resource` on a ledger whose
cluster class has no slot (`n_dask = 0`) still returns `True` and
decrements both classes, driving `n_dask` to `-1` — `acquire` is not
guarded by `remaining ≥ n` and the conjunction is not all-or-nothing at
the level of `consume_resource` itself. -/
theorem dask_consume_overconsumes :
    c4Res.n_dask.pos = false ∧
    (Job.consume_resource (c4State c4Res) 4).1 = true ∧
    (Job.consume_resource (c4State c4Res) 4).2.resource.n_dask = RNum.fin (-1) ∧
    (Job.consume_resource (c4State c4Res) 4).2.resource.n_job = RNum.fin 4 :=
  ⟨rfl, rfl, rfl, rfl⟩

/-- C4 amended: the non-over-consumption and all-or-nothing guarantees
hold for the scheduler's acquisition step (`runnable() and
consume_resource()` in `wait_and_run`), not for `consume_resource`
alone: the step consumes nothing unless every class required by the job
(`jobs_total` and the cluster class for a dask job) has a slot, and when
it consumes, it decrements exactly those classes. -/
theorem acquire_step_all_or_nothing (r : Resource) :
    Job.acquire_step (c4State r) 4 =
      if r.n_job.pos && r.n_dask.pos then
        (true, { c4State r with resource :=
          { r with n_dask := r.n_dask.dec, n_job := r.n_job.dec } })
      else (false, c4State r) := by
  rw [Job.acquire_step,
    show Job.runnable (c4State r) 4 = (r.n_job.pos && r.n_dask.pos) from rfl]
  cases h : (r.n_job.pos && r.n_dask.pos) <;> rfl

/-- C5 counterexample: the job was created with `retries = 1`; after
both attempts fail it is terminal with `retry_remain = 0`; re-submitting
it leaves `retry_remain = 0` — `submit_async` does not reinitialize it
from the original `retries`, contradicting the claim's first half. -/
theorem resubmit_does_not_reset_retry_remain :
    c5JobT.retries = 1 ∧ c5JobT.status = .failed ∧
    statusOf c5Re 1 = some .pending ∧
    retryN c5Re 1 = 0 ∧ (0 : Nat) ≠ 1 :=
  ⟨rfl, rfl, rfl, rfl, by decide⟩

/-- C6 counterexample: a job with one future argument (id 9), no
explicit condition.  The first emission derives `AfterOthers [9]`.  The
job is cancelled while pending — its arguments were never resolved — and
re-submitted: the second emission derives again and conjoins a second
`AfterOthers` node, giving `AllSatisfied [AfterOthers [9], AfterOthers
[9]]`, contradicting "applied exactly once per job". -/
theorem double_after_others_on_reemit :
    condOf c6St1 3 = some (some (.afterOthers [9])) ∧
    statusOf c6St2 3 = some .cancelled ∧
    condOf c6St3 3 = some (some (.allSatisfied [.afterOthers [9], .afterOthers [9]])) :=
  ⟨rfl, rfl, rfl⟩

/-- C7 counterexample: `JobFuture.result` is `return self._result`; on a
freshly created job (status `created`, not `done`) it silently returns
the unset placeholder `None` instead of failing with `InvalidState`. -/
theorem future_result_returns_placeholder :
    c7Job.status = .created ∧ c7Job.status ≠ .done ∧
    JobFuture.result c7Job.future = .vnone :=
  ⟨rfl, by decide, rfl⟩

/-- C7 amended: the `InvalidState` guard lives on `Job.result`, not on
the future: `Job.result` fails with `InvalidState` exactly when the
job's status is not `done` and returns the stored value when it is,
while `JobFuture.result` returns the stored value (the unset `None`
placeholder included) unconditionally. -/
theorem result_invalid_state_semantics :
    (∀ j : Job, j.status ≠ .done → Job.result j = .error ()) ∧
    (∀ j : Job, j.status = .done → Job.result j = .ok j.future.resultVal) ∧
    (∀ f : JobFuture, JobFuture.result f = f.resultVal) := by
  refine ⟨fun j h => ?_, fun j h => ?_, fun f => rfl⟩
  · have hb : (j.status != JobStatus.done) = true := by simp [bne_iff_ne, h]
    rw [Job.result, hb]
    rfl
  · have hb : (j.status != JobStatus.done) = false := by simp [bne, h]
    rw [Job.result, hb]
    rfl

/-- Witness for C7's amended theorem at concrete inputs. -/
theorem result_invalid_state_semantics_witness :
    Job.result c7Job = .error () ∧
    Job.result { c7Job with status := .done } = .ok .vnone :=
  ⟨result_invalid_state_semantics.1 c7Job (by decide),
   result_invalid_state_semantics.2.1 { c7Job with status := .done } rfl⟩

/-- C8: the claim (and the spec, which fixes the source's ambiguity)
requires `cancel` on a pending job to succeed even when the lifecycle
task has not been created.  The code runs `self.task.cancel()`
unconditionally, which on `task = None` raises `AttributeError` before
any status change: the `.error` outcome below, with the job left
`pending`, not `cancelled`. -/
theorem cancel_pending_without_task_raises :
    statusOf c8St 5 = some .pending ∧
    (getJob c8St 5).map Job.taskCreated = some false ∧
    Job.cancel c8St 5 = .error () :=
  ⟨rfl, rfl, rfl⟩

/-- C9: the `wait_run` closure inside the synchronous `Engine.submit`
never raises the job's error: it always returns normally (`.ok`), and
for a job that is not `done` (`failed` or `cancelled`) the returned
value is the stored exception object (possibly `None`) as an ordinary
value. -/
theorem wait_run_returns_exception_value (j : Job) :
    Engine.wait_run j =
      .ok (if j.status == .done then j.future.resultVal else j.future.exceptionVal) := by
  rw [Engine.wait_run]
  cases h : (j.status == JobStatus.done) with
  | true =>
    have hb : (j.status != JobStatus.done) = false := by simp [bne, h]
    rw [Job.result, hb]
    rfl
  | false => rfl

/-- C10: `JobFuture.set_result` assigns only `_result` and leaves a
previously stored `_exception` in place; consequently a job that fails
its first attempt with `e` and succeeds on the retry with `v` ends
`done` with `result() = v` while `exception()` still returns `e`. -/
theorem set_result_keeps_exception (e v : PyVal) :
    (∀ (f : JobFuture) (x : PyVal),
      (f.set_result x).exceptionVal = f.exceptionVal ∧ (f.set_result x).resultVal = x) ∧
    (wfin (Job.wait_and_run (c10Start e v) 1 0 2)).map
        (fun s => (statusOf s 1, resultOf s 1, excOf s 1)) =
      some (some .done, some v, some e) := by
  constructor
  · exact fun f x => ⟨rfl, rfl⟩
  · have h1 : Job.wait_and_run (readyState (flipF e v) [] [] 1 1 .vnone .vnone [] [] []) 1 0 2
        = Job.wait_and_run (readyState (flipF e v) [] [] 1 0 .vnone e [] [] []) 1 1 1 :=
      wait_and_run_step_fail_retry (flipF e v) 1 0 .vnone .vnone e [] [] [] 0 1 rfl
    have h2 : Job.wait_and_run (readyState (flipF e v) [] [] 1 0 .vnone e [] [] []) 1 1 1
        = .finished (readyDone (flipF e v) [] [] 1 0 v e [] [] []) :=
      wait_and_run_step_ok (flipF e v) [] [] 1 0 .vnone e v [] [] [] 1 0 rfl
    rw [show c10Start e v
          = readyState (flipF e v) [] [] 1 1 .vnone .vnone [] [] [] from rfl, h1, h2]
    rfl


/-- With no `JobFuture` among the arguments, `resolve_dependencies` only
resets `dep_job_ids` to the empty list and keeps the condition. -/
lemma resolve_dependencies_no_fut (j : Job) (h : futArgIds j = []) :
    Job.resolve_dependencies j = { j with dep_job_ids := [] } := by
  rw [Job.resolve_dependencies]
  rw [show (j.args ++ j.kwargs.map Prod.snd).filterMap futIdOf = [] from h]
  rfl

/-- C1: for every job whose callable returns a value on its arguments
without raising (and with no future-handle arguments), the synchronous
`Engine.submit` flow ends with the job `done`, the job's future holding
that value, and the returned future yielding exactly that value. -/
theorem submit_value_resolves_done
    (g : List PyVal → List (Nat × PyVal) → PyVal)
    (args : List PyVal) (kwargs : List (Nat × PyVal)) (r : Nat) (dcbs : List Nat)
    (hnf : futArgIds (c1Job g args kwargs r dcbs) = []) :
    (Engine.submitFlow initState (c1Job g args kwargs r dcbs) 1).map
        (fun p => (statusOf p.1 1, resultOf p.1 1, p.2))
      = some (some .done, some (g args kwargs), .ok (g args kwargs)) := by
  have hsub : Engine.submit_async initState (c1Job g args kwargs r dcbs)
      = .ok (modifyJob (modifyJob (c1Pre g args kwargs r dcbs) 1 Job.resolve_dependencies) 1
          (fun x => { x with taskCreated := true })) := rfl
  have hrd : Job.resolve_dependencies
        { id := 1, func := fun a k _ => Except.ok (g a k), args := args, kwargs := kwargs,
          retries := r, retry_remain := r, status := .pending, condition := none,
          engineSet := true, taskCreated := false, dep_job_ids := [],
          future := { job_id := 1, resultVal := .vnone, exceptionVal := .vnone,
                      done_callbacks := dcbs, error_callbacks := [] },
          kind := .base }
      = { id := 1, func := fun a k _ => Except.ok (g a k), args := args, kwargs := kwargs,
          retries := r, retry_remain := r, status := .pending, condition := none,
          engineSet := true, taskCreated := false, dep_job_ids := [],
          future := { job_id := 1, resultVal := .vnone, exceptionVal := .vnone,
                      done_callbacks := dcbs, error_callbacks := [] },
          kind := .base } :=
    resolve_dependencies_no_fut _ hnf
  have hmod : modifyJob (modifyJob (c1Pre g args kwargs r dcbs) 1 Job.resolve_dependencies) 1
        (fun x => { x with taskCreated := true })
      = readyState (fun a k _ => .ok (g a k)) args kwargs r r .vnone .vnone dcbs [] [] := by
    rw [show modifyJob (c1Pre g args kwargs r dcbs) 1 Job.resolve_dependencies
          = { c1Pre g args kwargs r dcbs with registry := [Job.resolve_dependencies
              { id := 1, func := fun a k _ => Except.ok (g a k), args := args, kwargs := kwargs,
                retries := r, retry_remain := r, status := .pending, condition := none,
                engineSet := true, taskCreated := false, dep_job_ids := [],
                future := { job_id := 1, resultVal := .vnone, exceptionVal := .vnone,
                            done_callbacks := dcbs, error_callbacks := [] },
                kind := .base }] } from rfl, hrd]
    rfl
  have hrun : Job.wait_and_run
        (readyState (fun a k _ => .ok (g a k)) args kwargs r r .vnone .vnone dcbs [] []) 1 0 1
      = .finished (readyDone (fun a k _ => .ok (g a k)) args kwargs r r
          (g args kwargs) .vnone dcbs [] []) :=
    wait_and_run_step_ok (fun a k _ => .ok (g a k)) args kwargs r r .vnone .vnone
      (g args kwargs) dcbs [] [] 0 0 rfl
  simp only [Engine.submitFlow, hsub, hmod, hrun]
  rfl

/-- Witness for C1 at the spec's own example: `func = x ↦ x*x`,
`args = (2,)`, giving 4. -/
theorem submit_value_resolves_done_witness :
    (Engine.submitFlow initState
        (c1Job (fun a _ => match a with | [.vint n] => .vint (n * n) | _ => .vnone)
          [.vint 2] [] 0 []) 1).map
        (fun p => (statusOf p.1 1, resultOf p.1 1, p.2))
      = some (some .done, some (.vint 4), .ok (.vint 4)) :=
  submit_value_resolves_done
    (fun a _ => match a with | [.vint n] => .vint (n * n) | _ => .vnone)
    [.vint 2] [] 0 [] rfl


/-- `release_resource` touches only the ledger, never the callback log. -/
lemma fired_release_resource (st : EngState) (jid : Nat) :
    (Job.release_resource st jid).2.fired = st.fired := by
  rw [Job.release_resource]
  cases hg : getJob st jid with
  | none => rfl
  | some j =>
    cases he : j.engineSet with
    | false => simp [he]
    | true => cases hk : j.kind <;> simp [he, hk]

/-- `_on_finish` fires no callback. -/
lemma fired_on_finish (st : EngState) (jid : Nat) (ns : JobStatus) :
    (Job.on_finish st jid ns).fired = st.fired := by
  rw [Job.on_finish, fired_release_resource]
  rfl

/-- The callback log after `Job.cancel` equals the log before: no
callback fires on a cancelled job (the `AttributeError` case leaves the
log unchanged too). -/
lemma cancelFired_eq (st : EngState) (jid : Nat) :
    cancelFired st jid = st.fired := by
  rw [cancelFired, Job.cancel]
  cases hg : getJob st jid with
  | none => rfl
  | some j =>
    cases ht : j.taskCreated with
    | false => simp [ht]
    | true =>
      cases hr : (j.status == JobStatus.running) with
      | true => simp [ht, hr, fired_on_finish]
      | false =>
        cases hp : (j.status == JobStatus.pending) with
        | true =>
          simp only [ht, hr, hp, Bool.not_true, if_true, if_false, Bool.false_eq_true]
          rfl
        | false => simp [ht, hr, hp]

/-- Iterating the retry loop of an always-raising callable: starting
with `retry_remain = r`, the run performs `r + 1` attempts; each failed
attempt appends one invocation of every error callback, in insertion
order, and the job ends `failed` with no retries left. -/
lemma fail_loop (e : PyVal) (dcbs ecbs : List Nat) (rts : Nat) :
    ∀ (r : Nat) (log : List (Nat × PyVal)) (resV excV : PyVal) (a : Nat),
    Job.wait_and_run (readyState (constErrF e) [] [] rts r resV excV dcbs ecbs log) 1 a (r + 1)
      = .finished (readyFailed (constErrF e) [] [] rts resV e dcbs ecbs
          (log ++ ((List.replicate r (ecbs.map (fun cb => (cb, e)))).flatten))) := by
  intro r
  induction r with
  | zero =>
    intro log resV excV a
    simpa using
      wait_and_run_step_fail_last (constErrF e) [] [] rts resV excV e dcbs ecbs log a 0 rfl
  | succ n ih =>
    intro log resV excV a
    rw [wait_and_run_step_fail_retry (constErrF e) rts n resV excV e dcbs ecbs log a (n + 1) rfl,
        ih]
    simp [List.replicate_succ, List.append_assoc]

/-- C3 counterexample: with `retries = 2` and a callable that fails on
every attempt, the single registered error callback fires three times —
once per attempt — not exactly once as the claim states. -/
theorem error_callback_fires_thrice :
    c3Final.fired = [(7, .vexc 99), (7, .vexc 99), (7, .vexc 99)] ∧
    c3Final.fired.countP (fun p => p.1 == 7) = 3 ∧ (3 : Nat) ≠ 1 :=
  ⟨rfl, rfl, by decide⟩

/-- C3 amended: each error-callback fires exactly once per failed
attempt — `retries + 1` times in total for a job that fails every
attempt — and callbacks fire in insertion order; each done-callback
fires exactly once on a successful attempt, in insertion order; and
cancellation fires no callback at all. -/
theorem callbacks_fire_once_per_attempt (r : Nat) (e v : PyVal) (dcbs ecbs : List Nat) :
    (wfin (Job.wait_and_run (readyState (constErrF e) [] [] r r .vnone .vnone dcbs ecbs [])
        1 0 (r + 1))).map (fun s => (s.fired, statusOf s 1))
      = some ((List.replicate (r + 1) (ecbs.map (fun cb => (cb, e)))).flatten,
              some .failed) ∧
    (wfin (Job.wait_and_run (readyState (constOkF v) [] [] r r .vnone .vnone dcbs ecbs [])
        1 0 1)).map (fun s => (s.fired, statusOf s 1))
      = some (dcbs.map (fun cb => (cb, v)), some .done) ∧
    (∀ (st : EngState) (jid : Nat), cancelFired st jid = st.fired) := by
  refine ⟨?_, ?_, cancelFired_eq⟩
  · rw [fail_loop e dcbs ecbs r r [] .vnone .vnone 0]
    simp [wfin, readyFailed, statusOf, getJob, List.replicate_succ', List.flatten_append]
  · rw [wait_and_run_step_ok (constOkF v) [] [] r r .vnone .vnone v dcbs ecbs [] 0 0 rfl]
    rfl


/-- C6 amended: the `AfterOthers` derivation runs at every emission, not
once per job: each `emit` applies `resolve_dependencies`, which conjoins
an `AfterOthers` over exactly the future-argument job ids with the
current condition (as `AllSatisfied` when one exists) and leaves the
condition untouched when no future argument remains — so a normal retry
(whose arguments were already resolved to plain values) adds no new
node, but re-emitting before resolution conjoins a second one. -/
theorem emit_condition_derivation (j : Job) (hp : j.status = .pending) :
    (futArgIds j = [] →
      (Job.resolve_dependencies j).condition = j.condition ∧
      (Job.resolve_dependencies j).dep_job_ids = []) ∧
    (futArgIds j ≠ [] →
      (Job.resolve_dependencies j).condition
        = some (match j.condition with
                | none => Cond.afterOthers (futArgIds j)
                | some c => Cond.allSatisfied [c, Cond.afterOthers (futArgIds j)]) ∧
      (Job.resolve_dependencies j).dep_job_ids = futArgIds j) ∧
    Job.emit { resource := defaultResource, registry := [j], fired := [] } j.id
      = .ok (modifyJob
          (modifyJob { resource := defaultResource, registry := [j], fired := [] }
            j.id Job.resolve_dependencies)
          j.id (fun x => { x with taskCreated := true })) := by
  refine ⟨fun h => ?_, fun h => ?_, ?_⟩
  · rw [resolve_dependencies_no_fut j h]
    exact ⟨rfl, rfl⟩
  · have hlen : 0 < (futArgIds j).length := List.length_pos.mpr h
    simp only [Job.resolve_dependencies]
    rw [show (j.args ++ j.kwargs.map Prod.snd).filterMap futIdOf = futArgIds j from rfl,
        if_pos hlen]
    cases hc : j.condition <;> simp [hc]
  · simp only [Job.emit]
    rw [show getJob { resource := defaultResource, registry := [j], fired := [] } j.id
          = some j from by simp [getJob]]
    have hb : (j.status != JobStatus.pending) = false := by simp [bne, hp]
    simp only [hb, Bool.false_eq_true, if_false]

/-- Witness for C6's amended theorem: the scenario job (one future
argument, no explicit condition), instantiated while pending. -/
theorem emit_condition_derivation_witness :
    (Job.resolve_dependencies { c6Job with status := .pending }).condition
        = some (Cond.afterOthers [9]) ∧
    (Job.resolve_dependencies { c6Job with status := .pending }).dep_job_ids = [9] :=
  (emit_condition_derivation { c6Job with status := .pending } rfl).2.1 (by decide)


/-- `find?` after an id-preserving, id-targeted map. -/
lemma getJob_modifyJob (st : EngState) (jid i : Nat) (f : Job → Job)
    (hid : ∀ x, (f x).id = x.id) :
    getJob (modifyJob st jid f) i
      = (getJob st i).map (fun x => if x.id == jid then f x else x) := by
  have hp : ((fun x : Job => x.id == i) ∘ fun x : Job => if x.id == jid then f x else x)
      = fun x : Job => x.id == i := by
    funext x
    by_cases hx : (x.id == jid) = true
    · simp [Function.comp, hx, hid]
    · simp [Function.comp, hx]
  show (st.registry.map fun x => if x.id == jid then f x else x).find? (fun x => x.id == i)
      = ((st.registry.find? fun x => x.id == i).map fun x => if x.id == jid then f x else x)
  rw [List.find?_map, hp]

/-- An id- and retry-preserving job update leaves `retryN` unchanged. -/
lemma retryN_modifyJob_eq (st : EngState) (jid i : Nat) (f : Job → Job)
    (hid : ∀ x, (f x).id = x.id) (hr : ∀ x, (f x).retry_remain = x.retry_remain) :
    retryN (modifyJob st jid f) i = retryN st i := by
  rw [retryN, retryN, getJob_modifyJob st jid i f hid]
  cases getJob st i with
  | none => rfl
  | some x =>
    simp only [Option.map, Option.getD]
    split <;> simp [hr]

/-- An id-preserving, retry-non-increasing job update cannot increase
`retryN`. -/
lemma retryN_modifyJob_le (st : EngState) (jid i : Nat) (f : Job → Job)
    (hid : ∀ x, (f x).id = x.id) (hr : ∀ x, (f x).retry_remain ≤ x.retry_remain) :
    retryN (modifyJob st jid f) i ≤ retryN st i := by
  rw [retryN, retryN, getJob_modifyJob st jid i f hid]
  cases getJob st i with
  | none => exact le_refl _
  | some x =>
    simp only [Option.map, Option.getD]
    split <;> simp [hr]

/-- Callback firing does not touch the registry. -/
lemma retryN_fireCallbacks (st : EngState) (cbs : List Nat) (p : PyVal) (i : Nat) :
    retryN (fireCallbacks st cbs p) i = retryN st i := rfl

/-- `release_resource` does not touch the registry. -/
lemma retryN_release (st : EngState) (jid i : Nat) :
    retryN (Job.release_resource st jid).2 i = retryN st i := by
  rw [Job.release_resource]
  cases hg : getJob st jid with
  | none => rfl
  | some j =>
    cases he : j.engineSet with
    | false => simp [he]
    | true => cases hk : j.kind <;> simp [he, hk] <;> rfl

/-- `consume_resource` does not touch the registry. -/
lemma retryN_consume (st : EngState) (jid i : Nat) :
    retryN (Job.consume_resource st jid).2 i = retryN st i := by
  rw [Job.consume_resource]
  cases hg : getJob st jid with
  | none => rfl
  | some j =>
    cases he : j.engineSet with
    | false => simp [he]
    | true => cases hk : j.kind <;> simp [he, hk] <;> rfl

/-- The acquisition step does not touch the registry. -/
lemma retryN_acquire (st : EngState) (jid i : Nat) :
    retryN (Job.acquire_step st jid).2 i = retryN st i := by
  rw [Job.acquire_step]
  cases hr : Job.runnable st jid
  · rfl
  · simp only [if_true]
    exact retryN_consume st jid i

/-- `_on_finish` preserves every job's remaining retries. -/
lemma retryN_on_finish (st : EngState) (jid i : Nat) (ns : JobStatus) :
    retryN (Job.on_finish st jid ns) i = retryN st i := by
  rw [Job.on_finish, retryN_release]
  exact retryN_modifyJob_eq _ _ _ _ (fun x => rfl) (fun x => rfl)

/-- `on_done` preserves every job's remaining retries. -/
lemma retryN_on_done (st : EngState) (jid i : Nat) (res : PyVal) :
    retryN (Job.on_done st jid res) i = retryN st i := by
  rw [Job.on_done, retryN_on_finish, retryN_fireCallbacks]
  exact retryN_modifyJob_eq _ _ _ _ (fun x => rfl) (fun x => rfl)

/-- `cancel` preserves every job's remaining retries. -/
lemma retryN_cancel (st : EngState) (jid i : Nat) (st2 : EngState)
    (hc : Job.cancel st jid = .ok st2) : retryN st2 i = retryN st i := by
  rw [Job.cancel] at hc
  cases hg : getJob st jid with
  | none => rw [hg] at hc; cases hc
  | some j =>
    rw [hg] at hc
    cases ht : j.taskCreated with
    | false => simp [ht] at hc
    | true =>
      cases hr : (j.status == JobStatus.running) with
      | true =>
        simp only [ht, hr, Bool.not_true, Bool.false_eq_true, if_false, if_true] at hc
        cases hc
        exact retryN_on_finish st jid i .cancelled
      | false =>
        cases hp : (j.status == JobStatus.pending) with
        | true =>
          simp only [ht, hr, hp, Bool.not_true, Bool.false_eq_true, if_false, if_true] at hc
          cases hc
          exact retryN_modifyJob_eq _ _ _ _ (fun x => rfl) (fun x => rfl)
        | false =>
          simp only [ht, hr, hp, Bool.not_true, Bool.false_eq_true, if_false, if_true] at hc
          cases hc
          rfl


/-- Callback firing does not change any registry lookup. -/
lemma getJob_fireCallbacks (st : EngState) (cbs : List Nat) (p : PyVal) (i : Nat) :
    getJob (fireCallbacks st cbs p) i = getJob st i := rfl

/-- `_resolve_arg` preserves every job's remaining retries, whatever the
outcome (the embedded `cancel` does not touch them). -/
lemma retryN_resolve_one (st : EngState) (jid i : Nat) (arg : PyVal) :
    retryN (exSt (Job.resolve_one st jid arg)) i = retryN st i := by
  cases arg with
  | vint n => rfl
  | vnone => rfl
  | vexc n => rfl
  | vfut dep_id =>
    simp only [Job.resolve_one]
    cases hg : getJob st dep_id with
    | none => rfl
    | some dep =>
      cases hd : (dep.status == JobStatus.done) with
      | true =>
        simp only [hd, if_true]
        cases hres : Job.result dep <;> rfl
      | false =>
        cases hf : (dep.status == JobStatus.failed) with
        | true =>
          simp only [hd, hf, Bool.false_eq_true, if_false, if_true]
          cases hc : Job.cancel st jid with
          | ok st2 => exact retryN_cancel st jid i st2 hc
          | error u => rfl
        | false =>
          cases hcc : (dep.status == JobStatus.cancelled) with
          | true =>
            simp only [hd, hf, hcc, Bool.false_eq_true, if_false, if_true]
            cases hc : Job.cancel st jid with
            | ok st2 => exact retryN_cancel st jid i st2 hc
            | error u => rfl
          | false =>
            simp only [hd, hf, hcc, Bool.false_eq_true, if_false]
            rfl

/-- The positional-argument loop preserves remaining retries. -/
lemma retryN_resolve_list (jid i : Nat) :
    ∀ (l : List PyVal) (st : EngState),
    retryN (exSt (Job.resolve_list st jid l)) i = retryN st i := by
  intro l
  induction l with
  | nil => intro st; rfl
  | cons a rest ih =>
    intro st
    simp only [Job.resolve_list]
    split
    · next err heq =>
      have h1' := retryN_resolve_one st jid i a
      rw [heq] at h1'
      exact h1'
    · next st2 v heq =>
      have h1' := retryN_resolve_one st jid i a
      rw [heq] at h1'
      split
      · next err heq2 =>
        have h2' := ih st2
        rw [heq2] at h2'
        exact h2'.trans h1'
      · next st3 vs heq2 =>
        have h2' := ih st2
        rw [heq2] at h2'
        exact h2'.trans h1'

/-- The keyword-argument loop preserves remaining retries. -/
lemma retryN_resolve_kwlist (jid i : Nat) :
    ∀ (l : List (Nat × PyVal)) (st : EngState),
    retryN (exSt (Job.resolve_kwlist st jid l)) i = retryN st i := by
  intro l
  induction l with
  | nil => intro st; rfl
  | cons a rest ih =>
    obtain ⟨k, v0⟩ := a
    intro st
    simp only [Job.resolve_kwlist]
    split
    · next err heq =>
      have h1' := retryN_resolve_one st jid i v0
      rw [heq] at h1'
      exact h1'
    · next st2 v heq =>
      have h1' := retryN_resolve_one st jid i v0
      rw [heq] at h1'
      split
      · next err heq2 =>
        have h2' := ih st2
        rw [heq2] at h2'
        exact h2'.trans h1'
      · next st3 vs heq2 =>
        have h2' := ih st2
        rw [heq2] at h2'
        exact h2'.trans h1'

/-- `resolve_args` preserves every job's remaining retries. -/
lemma retryN_resolve_args (st : EngState) (jid i : Nat) :
    retryN (exSt0 (Job.resolve_args st jid)) i = retryN st i := by
  rw [Job.resolve_args]
  split
  · rfl
  · next j hg =>
    split
    · split
      · next err heq =>
        have h1' := retryN_resolve_list jid i j.args st
        rw [heq] at h1'
        exact h1'
      · next st2 newArgs heq =>
        have h1' := retryN_resolve_list jid i j.args st
        rw [heq] at h1'
        split
        · next err heq2 =>
          have h2' := retryN_resolve_kwlist jid i j.kwargs st2
          rw [heq2] at h2'
          exact h2'.trans h1'
        · next st3 newKw heq2 =>
          have h2' := retryN_resolve_kwlist jid i j.kwargs st2
          rw [heq2] at h2'
          refine Eq.trans ?_ (h2'.trans h1')
          exact retryN_modifyJob_eq _ _ _ _ (fun x => rfl) (fun x => rfl)
    · rfl

/-- `resolve_dependencies` never changes the job id. -/
lemma resolve_dependencies_id (x : Job) : (Job.resolve_dependencies x).id = x.id := by
  simp only [Job.resolve_dependencies]
  split
  · split <;> rfl
  · rfl

/-- `resolve_dependencies` never changes the retry counter. -/
lemma resolve_dependencies_retry (x : Job) :
    (Job.resolve_dependencies x).retry_remain = x.retry_remain := by
  simp only [Job.resolve_dependencies]
  split
  · split <;> rfl
  · rfl

/-- A successful `emit` preserves every job's remaining retries. -/
lemma retryN_emit (st : EngState) (jid i : Nat) (st2 : EngState)
    (he : Job.emit st jid = .ok st2) : retryN st2 i = retryN st i := by
  rw [Job.emit] at he
  cases hg : getJob st jid with
  | none => rw [hg] at he; cases he
  | some j =>
    rw [hg] at he
    cases hp : (j.status != JobStatus.pending) with
    | true => simp [hp] at he
    | false =>
      simp only [hp, Bool.false_eq_true, if_false] at he
      cases he
      rw [retryN_modifyJob_eq _ _ _ (fun x => { x with taskCreated := true })
        (fun x => rfl) (fun x => rfl)]
      exact retryN_modifyJob_eq _ _ _ _ resolve_dependencies_id resolve_dependencies_retry

/-- The retry tail of `on_failed` (release, decrement, re-emit) cannot
increase the remaining retries. -/
lemma retryN_failtail (s : EngState) (jid i : Nat) :
    retryN (failSt (match Job.emit (modifyJob (modifyJob (Job.on_finish s jid .pending) jid
        fun x => { x with retry_remain := x.retry_remain - 1 }) jid
        fun x => { x with status := .pending }) jid with
      | .ok st6 => FailNext.retry st6
      | .error _ => FailNext.crashed (modifyJob (modifyJob (Job.on_finish s jid .pending) jid
          fun x => { x with retry_remain := x.retry_remain - 1 }) jid
          fun x => { x with status := .pending }))) i ≤ retryN s i := by
  have hch : retryN (modifyJob (modifyJob (Job.on_finish s jid .pending) jid
      fun x => { x with retry_remain := x.retry_remain - 1 }) jid
      fun x => { x with status := .pending }) i ≤ retryN s i := by
    rw [retryN_modifyJob_eq _ _ _ (fun x => { x with status := JobStatus.pending })
      (fun x => rfl) (fun x => rfl)]
    refine le_trans (retryN_modifyJob_le _ _ _
      (fun x => { x with retry_remain := x.retry_remain - 1 })
      (fun x => rfl) (fun x => Nat.sub_le _ _)) ?_
    exact le_of_eq (retryN_on_finish s jid i .pending)
  split
  · next st6 hem =>
    exact le_trans (le_of_eq (retryN_emit _ jid i st6 hem)) hch
  · exact hch

/-- `on_failed` cannot increase any job's remaining retries, whatever
branch it takes. -/
lemma retryN_on_failed_le (st : EngState) (jid i : Nat) (e : PyVal) :
    retryN (failSt (Job.on_failed_step st jid e)) i ≤ retryN st i := by
  have hbase : ∀ cbs : List Nat,
      retryN (fireCallbacks (modifyJob st jid
        fun x => { x with future := x.future.set_exception e }) cbs e) i = retryN st i := by
    intro cbs
    rw [retryN_fireCallbacks]
    exact retryN_modifyJob_eq _ _ _ _ (fun x => rfl) (fun x => rfl)
  simp only [Job.on_failed_step]
  split
  · exact le_of_eq (hbase _)
  · next j hg =>
    split
    · exact le_trans (retryN_failtail _ jid i) (le_of_eq (hbase _))
    · simp only [failSt]
      refine le_of_eq ?_
      rw [retryN_on_finish]
      exact hbase _

/-- `wait_and_run` never increases any job's remaining retries: the
retry counter is non-increasing across a whole (fuelled) lifecycle run,
attempts and re-emissions included. -/
lemma retryFin_wait_and_run_le :
    ∀ (fuel : Nat) (st : EngState) (jid a i : Nat),
    retryFin (Job.wait_and_run st jid a fuel) i ≤ retryN st i := by
  intro fuel
  induction fuel with
  | zero => intro st jid a i; exact Nat.zero_le _
  | succ fuel ih =>
    intro st jid a i
    simp only [Job.wait_and_run]
    have hacq2 : retryN (Job.acquire_step st jid).2 i = retryN st i := retryN_acquire st jid i
    split
    · split
      · next st2 heq =>
        have h2 := retryN_resolve_args (Job.acquire_step st jid).2 jid i
        rw [heq] at h2
        exact le_of_eq (h2.trans hacq2)
      · next st2 heq =>
        have h2 := retryN_resolve_args (Job.acquire_step st jid).2 jid i
        rw [heq] at h2
        exact le_of_eq (h2.trans hacq2)
      · next st2 heq =>
        have h2 := retryN_resolve_args (Job.acquire_step st jid).2 jid i
        rw [heq] at h2
        have h3 : retryN (modifyJob st2 jid fun x => { x with status := .running }) i
            = retryN st i := by
          rw [retryN_modifyJob_eq _ _ _ (fun x => { x with status := JobStatus.running })
            (fun x => rfl) (fun x => rfl)]
          exact h2.trans hacq2
        split
        · exact le_of_eq ((retryN_on_done _ jid i _).trans h3)
        · next eerr hrf =>
          have h4 := retryN_on_failed_le (modifyJob st2 jid
            fun x => { x with status := .running }) jid i eerr
          split
          · next st4 hof =>
            rw [hof] at h4
            exact le_trans h4 (le_of_eq h3)
          · next st4 hof =>
            rw [hof] at h4
            exact le_trans h4 (le_of_eq h3)
          · next st4 hof =>
            rw [hof] at h4
            exact le_trans (ih st4 jid (a + 1) i) (le_trans h4 (le_of_eq h3))
    · exact ih st jid a i


/-- C5 amended: `retry_remain` is not reinitialized from `retries` at
re-submit — a (non-created) re-submitted job keeps exactly the counter
it had — and within a single submit the counter is non-increasing
across the whole lifecycle run (I7); a job that fails every attempt with
`retry_remain = r` consumes its retries one per attempt down to 0. -/
theorem retry_remain_semantics :
    (∀ (st : EngState) (j : Job) (st2 : EngState), j.status ≠ .created →
        Engine.submit_async st j = .ok st2 → retryN st2 j.id = retryN st j.id) ∧
    (∀ (fuel : Nat) (st : EngState) (jid a i : Nat),
        retryFin (Job.wait_and_run st jid a fuel) i ≤ retryN st i) ∧
    (∀ r : Nat, retryFin (Job.wait_and_run
        (readyState (constErrF (.vexc 3)) [] [] r r .vnone .vnone [] [] []) 1 0 (r + 1)) 1
      = 0) := by
  refine ⟨?_, retryFin_wait_and_run_le, ?_⟩
  · intro st j st2 hnc hsub
    rw [Engine.submit_async] at hsub
    have hb : (j.status == JobStatus.created) = false := by
      rw [beq_eq_false_iff_ne]
      exact hnc
    rw [hb] at hsub
    simp only [Bool.false_eq_true, if_false] at hsub
    exact (retryN_emit _ j.id j.id st2 hsub).trans
      (retryN_modifyJob_eq _ _ _ (fun x => { x with status := JobStatus.pending })
        (fun x => rfl) (fun x => rfl))
  · intro r
    rw [fail_loop (.vexc 3) [] [] r r [] .vnone .vnone 0]
    rfl

/-- Witness for C5's amended theorem: re-submitting the exhausted
terminal job of the counterexample scenario keeps its counter, and the
always-failing `retries = 2` run never increases it. -/
theorem retry_remain_semantics_witness :
    retryN c5Re 1 = retryN c5Fin 1 ∧
    retryFin (Job.wait_and_run c3Start 1 0 3) 1 ≤ retryN c3Start 1 :=
  ⟨retry_remain_semantics.1 c5Fin c5JobT c5Re (by decide) rfl,
   retry_remain_semantics.2.1 3 c3Start 1 0 1⟩

end ExecutorEngine

